import Mathlib

/-!
Verification of the top-level initial-sync cloning orchestrator
(`AllDatabaseCloner`, from `src/mongo/db/repl/all_database_cloner.cpp`).

The development shallowly embeds the orchestrator's pure control flow:

* `Status` models `mongo::Status` (OK, or an error code plus reason string);
* `InitialSyncSharedData` models the shared sync state with its
  first-write-wins `setInitialSyncStatusIfOK` operation;
* `ensurePrimaryOrSecondary` models the handshake validation callback;
* `connectStage` models the connect stage as a trace of client actions;
* `listStep` / `listDatabasesStage` model the `listDatabases` stage's
  filtering and admin-front-swap logic;
* `cloneLoop` / `postStage` model the sequential clone driver, with the
  outcomes of the nested `DatabaseCloner` runs and of the admin-database
  validation supplied by an oracle environment `CloneEnv`, and with ghost
  trace fields (`constructed`, `validated`) recording which nested units
  were built and which databases were validated;
* `getStats` models the stats snapshot that patches in the live stats of
  the currently-running nested unit.
-/

/-- Model of `mongo::Status`: OK, or an error carrying a code name and a
reason string. -/
inductive Status where
  | ok : Status
  | err : String → String → Status
deriving DecidableEq, Repr

/-- Model of `Status::withContext`: prefix the reason of an error with
context text; the OK status is unchanged. -/
def Status.withContext (s : Status) (ctx : String) : Status :=
  match s with
  | Status.ok => Status.ok
  | Status.err c m => Status.err c (ctx ++ " :: caused by :: " ++ m)

/-- A host-and-port address, kept abstract as its rendered string. -/
abbrev HostAndPort : Type := String

/-- Model of `InitialSyncSharedData`: the cross-unit shared sync state,
holding the overall initial-sync status. -/
structure InitialSyncSharedData where
  initialSyncStatus : Status
deriving DecidableEq, Repr

/-- Model of `InitialSyncSharedData::setInitialSyncStatusIfOK`: the status
is written only when the currently held status is OK (first-write-wins). -/
def setInitialSyncStatusIfOK (sd : InitialSyncSharedData) (s : Status) :
    InitialSyncSharedData :=
  match sd.initialSyncStatus with
  | Status.ok => { sd with initialSyncStatus := s }
  | Status.err _ _ => sd

/-- ASCII lower-casing of one character, as `tolower` does on the ASCII
database names involved. -/
def lowerChar (c : Char) : Char :=
  if 'A' ≤ c ∧ c ≤ 'Z' then Char.ofNat (c.toNat + 32) else c

/-- Model of `StringData::equalCaseInsensitive`. -/
def equalCaseInsensitive (a b : String) : Bool :=
  a.data.map lowerChar == b.data.map lowerChar

/-- Model of `std::swap(_databases.front(), _databases.back())`: exchange
the first and last elements of a list. -/
def swapFrontBack (l : List String) : List String :=
  match l with
  | [] => []
  | a :: rest =>
    match rest.getLast? with
    | none => [a]
    | some z => z :: (rest.dropLast ++ [a])

/-- One iteration of the loop body of `AllDatabaseCloner::listDatabasesStage`:
a listing entry without a `name` field (`none`) is skipped, the name
`"local"` is skipped, any other name is appended, and immediately after
appending `"admin"` to a list that then has more than one element the front
and back elements are swapped. -/
def listStep (dbs : List String) (entry : Option String) : List String :=
  match entry with
  | none => dbs
  | some name =>
    if name = "local" then dbs
    else
      let appended := dbs ++ [name]
      if name = "admin" ∧ 1 < appended.length then swapFrontBack appended
      else appended

/-- Model of `AllDatabaseCloner::listDatabasesStage`: fold the loop body over
the listing response, starting from an empty `_databases` list.  A listing
entry is `some name` when it has a `name` field and `none` otherwise. -/
def listDatabasesStage (entries : List (Option String)) : List String :=
  List.foldl listStep [] entries

/-- The names surviving the stage's two filters, in listing order: entries
with a `name` field whose name is not `"local"`. -/
def filteredNames (entries : List (Option String)) : List String :=
  (entries.filterMap id).filter (fun n => n != "local")

/-- Order of the non-admin entries after the admin-front swap: the first
element of the pre-admin segment is displaced to the slot directly before
the post-admin segment (the slot admin occupied in the filtered listing). -/
def displaceFront : List String → List String → List String
  | [], post => post
  | p0 :: ps, post => ps ++ p0 :: post

/-- Model of `executor::RemoteCommandResponse` as consumed by
`ensurePrimaryOrSecondary`: its overall status (`isOK()` is `status` being
OK) and the `ismaster` / `secondary` booleans of the isMaster reply body. -/
structure RemoteCommandResponse where
  status : Status
  ismaster : Bool
  secondary : Bool
deriving DecidableEq, Repr

/-- Model of `AllDatabaseCloner::ensurePrimaryOrSecondary`.  Besides the
returned status it yields the (possibly updated) shared sync state;
`otherNodes` models `ReplicationCoordinator::getOtherNodesInReplSet()` and
`source` models `getSource()`. -/
def ensurePrimaryOrSecondary (reply : RemoteCommandResponse)
    (otherNodes : List HostAndPort) (source : HostAndPort)
    (sd : InitialSyncSharedData) : Status × InitialSyncSharedData :=
  match reply.status with
  | Status.err c m => (Status.err c m, sd)
  | Status.ok =>
    if reply.ismaster || reply.secondary then (Status.ok, sd)
    else if source ∈ otherNodes then
      (Status.err "NotMasterOrSecondary"
        ("Cannot connect because sync source " ++ source ++
          " is neither primary nor secondary."), sd)
    else
      let st := Status.err "NotMasterOrSecondary"
        ("Sync source " ++ source ++
          " has been removed from the replication configuration.")
      (st, setInitialSyncStatusIfOK sd st)

/-- Observable actions the connect stage performs on the client connection. -/
inductive ConnectAction where
  | setHandshakeValidationHook : ConnectAction
  | connect : HostAndPort → ConnectAction
  | checkConnection : ConnectAction
  | authenticate : ConnectAction
deriving DecidableEq, Repr

/-- The connection-relevant state of `DBClientConnection`: the address the
client currently targets and whether a handshake validation hook is
installed. -/
structure ClientState where
  serverHostAndPort : HostAndPort
  hookInstalled : Bool
deriving DecidableEq, Repr

/-- Outcomes of the external collaborators the connect stage calls into:
the result of `connect`, of `checkConnection`, and of `replAuthenticate`. -/
structure ConnectEnv where
  connectResult : Status
  checkResult : Status
  authResult : Status
deriving DecidableEq, Repr

/-- Model of `AllDatabaseCloner::connectStage`: if the client already
targets the sync source, only `checkConnection` runs; otherwise the
handshake validation hook is installed and a fresh `connect` runs.  After a
successful connection, `replAuthenticate` runs and its failure is wrapped
(`withContext`) naming the sync source.  Returns the trace of actions, the
stage result (OK models `kContinueNormally`), and the final client state. -/
def connectStage (client : ClientState) (source : HostAndPort)
    (env : ConnectEnv) : List ConnectAction × Status × ClientState :=
  if client.serverHostAndPort = source then
    match env.checkResult with
    | Status.ok =>
      ([ConnectAction.checkConnection, ConnectAction.authenticate],
        Status.withContext env.authResult ("Failed to authenticate to " ++ source),
        client)
    | Status.err c m => ([ConnectAction.checkConnection], Status.err c m, client)
  else
    let hooked : ClientState := { client with hookInstalled := true }
    match env.connectResult with
    | Status.ok =>
      ([ConnectAction.setHandshakeValidationHook, ConnectAction.connect source,
          ConnectAction.authenticate],
        Status.withContext env.authResult ("Failed to authenticate to " ++ source),
        { hooked with serverHostAndPort := source })
    | Status.err c m =>
      ([ConnectAction.setHandshakeValidationHook, ConnectAction.connect source],
        Status.err c m, hooked)

/-- Model of one per-database stats slot (`DatabaseCloner::Stats`): the
database name plus an opaque payload standing for the nested cloner's
detailed counters (`0` models the default-constructed empty stats). -/
structure DatabaseStats where
  dbname : String
  payload : Nat
deriving DecidableEq, Repr

/-- Model of `AllDatabaseCloner::Stats`: the completed-database count and
the index-aligned per-database stats slots. -/
structure AllDatabaseClonerStats where
  databasesCloned : Nat
  databaseStats : List DatabaseStats
deriving DecidableEq, Repr

/-- Oracle outcomes of the external collaborators of `postStage`, indexed by
the position of the database in `_databases`: the result of the nested
`DatabaseCloner::run()`, its final and live stats, and the result of
`StorageInterface::isAdminDbValid`. -/
structure CloneEnv where
  runResult : Nat → Status
  finalStats : Nat → DatabaseStats
  liveStats : Nat → DatabaseStats
  adminValid : Nat → Status

/-- The mutable state of the `AllDatabaseCloner` during `postStage`:
`_stats`, `_currentDatabaseCloner` (as the index of the held nested unit),
and the shared sync state; `constructed` and `validated` are ghost traces of
which nested-unit indices were ever constructed and which indices underwent
the admin post-clone validation. -/
structure ADCState where
  stats : AllDatabaseClonerStats
  currentDatabaseCloner : Option Nat
  sharedData : InitialSyncSharedData
  constructed : List Nat
  validated : List Nat
deriving DecidableEq, Repr

/-- The success epilogue of one `postStage` loop iteration: copy the nested
unit's final stats into slot `databasesCloned`, drop the unit handle, and
increment `databasesCloned`. -/
def completeDatabase (env : CloneEnv) (i : Nat) (st : ADCState) : ADCState :=
  { st with
    stats := { databasesCloned := st.stats.databasesCloned + 1,
               databaseStats :=
                 st.stats.databaseStats.set st.stats.databasesCloned
                   (env.finalStats i) },
    currentDatabaseCloner := none }

/-- The per-database loop of `AllDatabaseCloner::postStage`, over the suffix
of `_databases` starting at index `i`: construct the nested unit, run it,
record a failure into the shared state and stop on error, run the admin
validation (case-insensitive name match) and likewise stop on its failure,
otherwise finalize the slot and continue. -/
def cloneLoop (env : CloneEnv) : List String → Nat → ADCState → ADCState
  | [], _, st => st
  | name :: rest, i, st =>
    let st1 : ADCState :=
      { st with currentDatabaseCloner := some i,
                constructed := st.constructed ++ [i] }
    match env.runResult i with
    | Status.err c m =>
      { st1 with sharedData := setInitialSyncStatusIfOK st1.sharedData (Status.err c m) }
    | Status.ok =>
      if equalCaseInsensitive name "admin" then
        let st2 : ADCState := { st1 with validated := st1.validated ++ [i] }
        match env.adminValid i with
        | Status.err c m =>
          { st2 with sharedData := setInitialSyncStatusIfOK st2.sharedData (Status.err c m) }
        | Status.ok => cloneLoop env rest (i + 1) (completeDatabase env i st2)
      else cloneLoop env rest (i + 1) (completeDatabase env i st1)

/-- The state at the start of `postStage`: `databasesCloned` reset to 0 and
one pre-filled stats slot per database, no active nested unit. -/
def initialState (dbs : List String) (sd : InitialSyncSharedData) : ADCState :=
  { stats := { databasesCloned := 0,
               databaseStats := dbs.map (fun n => { dbname := n, payload := 0 }) },
    currentDatabaseCloner := none,
    sharedData := sd,
    constructed := [],
    validated := [] }

/-- Model of `AllDatabaseCloner::postStage`: initialize the stats and drive
the sequential clone loop over the database list from index 0. -/
def postStage (env : CloneEnv) (dbs : List String)
    (sd : InitialSyncSharedData) : ADCState :=
  cloneLoop env dbs 0 (initialState dbs sd)

/-- One loop iteration of `postStage` succeeds for a database of the given
name at index `i`: the nested run returns OK and, when the name matches
admin case-insensitively, the admin validation also returns OK. -/
def stepOKb (env : CloneEnv) (name : String) (i : Nat) : Bool :=
  decide (env.runResult i = Status.ok) &&
    (!(equalCaseInsensitive name "admin") || decide (env.adminValid i = Status.ok))

/-- The status a failing `postStage` iteration records: the nested run's
error, or (when the run succeeded) the admin validation's error. -/
def failStatus (env : CloneEnv) (i : Nat) : Status :=
  match env.runResult i with
  | Status.ok => env.adminValid i
  | Status.err c m => Status.err c m

/-- Model of `AllDatabaseCloner::getStats`: copy `_stats` and, when a nested
unit is currently held, overwrite the slot at index `databasesCloned` with
that unit's live stats. -/
def getStats (env : CloneEnv) (st : ADCState) : AllDatabaseClonerStats :=
  match st.currentDatabaseCloner with
  | none => st.stats
  | some u =>
    { st.stats with
      databaseStats := st.stats.databaseStats.set st.stats.databasesCloned
        (env.liveStats u) }

theorem filteredNames_nil : filteredNames [] = [] := rfl

theorem filteredNames_none (rest : List (Option String)) :
    filteredNames (none :: rest) = filteredNames rest := rfl

theorem filteredNames_some (n : String) (rest : List (Option String))
    (h : n ≠ "local") :
    filteredNames (some n :: rest) = n :: filteredNames rest := by
  simp [filteredNames, List.filterMap_cons, List.filter_cons, h]

theorem filteredNames_local (rest : List (Option String)) :
    filteredNames (some "local" :: rest) = filteredNames rest := by
  simp [filteredNames, List.filterMap_cons, List.filter_cons]

theorem swapFrontBack_concat (p0 : String) (ps : List String) (z : String) :
    swapFrontBack (p0 :: (ps ++ [z])) = z :: (ps ++ [p0]) := by
  simp [swapFrontBack]

theorem listStep_none (dbs : List String) : listStep dbs none = dbs := rfl

theorem listStep_local (dbs : List String) :
    listStep dbs (some "local") = dbs := rfl

theorem listStep_plain (dbs : List String) (n : String)
    (hadmin : n ≠ "admin") (hlocal : n ≠ "local") :
    listStep dbs (some n) = dbs ++ [n] := by
  simp [listStep, hadmin, hlocal]

theorem listStep_admin_nil : listStep [] (some "admin") = ["admin"] := rfl

theorem listStep_admin_cons (p0 : String) (ps : List String) :
    listStep (p0 :: ps) (some "admin") = "admin" :: (ps ++ [p0]) := by
  have h : (1 : Nat) < ((p0 :: ps) ++ ["admin"]).length := by
    simp
  simp [listStep, h, swapFrontBack_concat]

theorem cons_concat_perm (x y : String) (l : List String) :
    (x :: (l ++ [y])).Perm (y :: (l ++ [x])) := by
  have h1 : (x :: (l ++ [y])).Perm (x :: (y :: l)) :=
    List.Perm.cons x (List.perm_append_singleton y l)
  have h2 : (x :: (y :: l)).Perm (y :: (x :: l)) := List.Perm.swap y x l
  have h3 : (y :: (x :: l)).Perm (y :: (l ++ [x])) :=
    List.Perm.cons y (List.perm_append_singleton x l).symm
  exact (h1.trans h2).trans h3

theorem foldl_listStep_perm (entries : List (Option String)) :
    ∀ acc : List String,
      (List.foldl listStep acc entries).Perm (acc ++ filteredNames entries) := by
  induction entries with
  | nil => intro acc; simp [filteredNames]
  | cons e rest ih =>
    intro acc
    match e with
    | none => simpa [listStep] using ih acc
    | some n =>
      by_cases hl : n = "local"
      · subst hl
        simpa [listStep, filteredNames_local] using ih acc
      · rw [filteredNames_some n rest hl]
        by_cases ha : n = "admin"
        · subst ha
          match acc with
          | [] =>
            rw [List.foldl_cons, listStep_admin_nil]
            simpa using ih ["admin"]
          | p0 :: ps =>
            rw [List.foldl_cons, listStep_admin_cons]
            have h1 := ih ("admin" :: (ps ++ [p0]))
            have h2 : ("admin" :: (ps ++ [p0]) ++ filteredNames rest).Perm
                ((p0 :: ps) ++ "admin" :: filteredNames rest) := by
              have h3 : ("admin" :: (ps ++ [p0])).Perm (p0 :: (ps ++ ["admin"])) :=
                cons_concat_perm "admin" p0 ps
              have h4 := List.Perm.append_right (filteredNames rest) h3
              have h5 : (p0 :: (ps ++ ["admin"])) ++ filteredNames rest =
                  (p0 :: ps) ++ "admin" :: filteredNames rest := by simp
              exact h5 ▸ h4
            exact h1.trans h2
        · rw [List.foldl_cons, listStep_plain acc n ha hl]
          have h1 := ih (acc ++ [n])
          simpa using h1

theorem listDatabasesStage_perm (entries : List (Option String)) :
    (listDatabasesStage entries).Perm (filteredNames entries) := by
  simpa using foldl_listStep_perm entries []

theorem foldl_listStep_noAdmin (entries : List (Option String)) :
    ∀ acc : List String, "admin" ∉ filteredNames entries →
      List.foldl listStep acc entries = acc ++ filteredNames entries := by
  induction entries with
  | nil => intro acc _; simp [filteredNames]
  | cons e rest ih =>
    intro acc hna
    match e with
    | none =>
      rw [filteredNames_none] at hna ⊢
      simpa [listStep] using ih acc hna
    | some n =>
      by_cases hl : n = "local"
      · subst hl
        rw [filteredNames_local] at hna ⊢
        simpa [listStep] using ih acc hna
      · rw [filteredNames_some n rest hl] at hna ⊢
        have hn : n ≠ "admin" := fun h => hna (h ▸ List.mem_cons_self _ _)
        have hrest : "admin" ∉ filteredNames rest := fun h =>
          hna (List.mem_cons_of_mem _ h)
        rw [List.foldl_cons, listStep_plain acc n hn hl, ih (acc ++ [n]) hrest]
        simp

theorem foldl_listStep_admin (entries : List (Option String)) :
    ∀ (acc pre post : List String),
      filteredNames entries = pre ++ "admin" :: post →
      "admin" ∉ pre → "admin" ∉ post →
      List.foldl listStep acc entries = "admin" :: displaceFront (acc ++ pre) post := by
  induction entries with
  | nil =>
    intro acc pre post h _ _
    rw [filteredNames_nil] at h
    exact absurd h.symm (List.append_ne_nil_of_right_ne_nil pre (List.cons_ne_nil _ _))
  | cons e rest ih =>
    intro acc pre post h hpre hpost
    match e with
    | none =>
      rw [filteredNames_none] at h
      simpa [listStep] using ih acc pre post h hpre hpost
    | some n =>
      by_cases hl : n = "local"
      · subst hl
        rw [filteredNames_local] at h
        simpa [listStep] using ih acc pre post h hpre hpost
      · rw [filteredNames_some n rest hl] at h
        match pre with
        | [] =>
          simp only [List.nil_append] at h
          have hn : n = "admin" := (List.cons.injEq _ _ _ _ ▸ h).1
          have hrest : filteredNames rest = post := (List.cons.injEq _ _ _ _ ▸ h).2
          subst hn
          match acc with
          | [] =>
            rw [List.foldl_cons, listStep_admin_nil,
              foldl_listStep_noAdmin rest ["admin"] (hrest ▸ hpost), hrest]
            simp [displaceFront]
          | p0 :: ps =>
            rw [List.foldl_cons, listStep_admin_cons,
              foldl_listStep_noAdmin rest _ (hrest ▸ hpost), hrest]
            simp [displaceFront]
        | q :: pre' =>
          simp only [List.cons_append] at h
          have hn : n = q := (List.cons.injEq _ _ _ _ ▸ h).1
          have hrest : filteredNames rest = pre' ++ "admin" :: post :=
            (List.cons.injEq _ _ _ _ ▸ h).2
          have hq : q ≠ "admin" := fun hc =>
            hpre (hc ▸ List.mem_cons_self _ _)
          have hpre' : "admin" ∉ pre' := fun hc =>
            hpre (List.mem_cons_of_mem _ hc)
          subst hn
          rw [List.foldl_cons, listStep_plain acc n hq hl,
            ih (acc ++ [n]) pre' post hrest hpre' hpost]
          simp [displaceFront]

/-- C2: whenever the name `"admin"` occurs exactly once in the filtered
listing (split as `pre ++ "admin" :: post` with `"admin"` in neither part),
the database list produced by `listDatabasesStage` has `"admin"` at index 0
and the other entries keep their relative order except that the first
pre-admin entry is displaced to the index admin originally occupied; in
particular `["reporting", "admin", "sales"]` yields
`["admin", "reporting", "sales"]` (see the witness). -/
theorem listDatabasesStage_admin_first (entries : List (Option String))
    (pre post : List String)
    (h : filteredNames entries = pre ++ "admin" :: post)
    (hpre : "admin" ∉ pre) (hpost : "admin" ∉ post) :
    listDatabasesStage entries = "admin" :: displaceFront pre post := by
  have hm := foldl_listStep_admin entries [] pre post h hpre hpost
  simpa [listDatabasesStage] using hm

/-- Witness for C2: the scenario `["reporting", "admin", "sales"]` yields
`["admin", "reporting", "sales"]`. -/
theorem listDatabasesStage_admin_first_witness :
    filteredNames [some "reporting", some "admin", some "sales"] =
      ["reporting"] ++ "admin" :: ["sales"] ∧
    listDatabasesStage [some "reporting", some "admin", some "sales"] =
      ["admin", "reporting", "sales"] := by
  refine ⟨by decide, ?_⟩
  have h := listDatabasesStage_admin_first
    [some "reporting", some "admin", some "sales"] ["reporting"] ["sales"]
    (by decide) (by decide) (by decide)
  simpa [displaceFront] using h

/-- C5: the database list never contains `"local"`, and every entry of the
list stems from a listing element that had a `name` field; moreover the
scenario `["admin", "local", "ops"]` yields `["admin", "ops"]`. -/
theorem listDatabasesStage_excludes :
    (∀ entries : List (Option String),
      "local" ∉ listDatabasesStage entries ∧
      ∀ x ∈ listDatabasesStage entries, some x ∈ entries) ∧
    listDatabasesStage [some "admin", some "local", some "ops"] =
      ["admin", "ops"] := by
  constructor
  · intro entries
    have hperm := listDatabasesStage_perm entries
    constructor
    · intro hmem
      have h1 : "local" ∈ filteredNames entries := hperm.mem_iff.mp hmem
      have h2 := (List.mem_filter.mp h1).2
      simp at h2
    · intro x hx
      have h1 : x ∈ filteredNames entries := hperm.mem_iff.mp hx
      have h2 : x ∈ entries.filterMap id := (List.mem_filter.mp h1).1
      obtain ⟨a, ha, hav⟩ := List.mem_filterMap.mp h2
      cases a with
      | none => cases hav
      | some y => cases hav; exact ha
  · decide

/-- Witness for C5: from the scenario listing, membership of `"ops"` in the
database list implies the listing contained the entry `some "ops"`. -/
theorem listDatabasesStage_excludes_witness :
    (some "ops" ∈ [some "admin", some "local", some "ops"]) ∧
    "local" ∉ listDatabasesStage [some "admin", some "local", some "ops"] :=
  ⟨(listDatabasesStage_excludes.1 [some "admin", some "local", some "ops"]).2
      "ops" (by decide),
    (listDatabasesStage_excludes.1 [some "admin", some "local", some "ops"]).1⟩

/-- C6: once the shared sync state holds a failure, a single call and,
more generally, any further sequence of `setInitialSyncStatusIfOK` calls
(the set-if-OK operation used at every failure site of this cloner) leave
the shared state unchanged: the first written failure wins. -/
theorem setInitialSyncStatusIfOK_first_write_wins (sd : InitialSyncSharedData)
    (c m : String) (h : sd.initialSyncStatus = Status.err c m) :
    (∀ s : Status, setInitialSyncStatusIfOK sd s = sd) ∧
    ∀ writes : List Status, List.foldl setInitialSyncStatusIfOK sd writes = sd := by
  have hstep : ∀ s : Status, setInitialSyncStatusIfOK sd s = sd := by
    intro s
    simp [setInitialSyncStatusIfOK, h]
  refine ⟨hstep, ?_⟩
  intro writes
  induction writes with
  | nil => rfl
  | cons w ws ih => rw [List.foldl_cons, hstep w]; exact ih

/-- Witness for C6: a shared state holding failure `A` survives two further
failure writes unchanged. -/
theorem setInitialSyncStatusIfOK_first_write_wins_witness :
    List.foldl setInitialSyncStatusIfOK ⟨Status.err "A" "first"⟩
      [Status.err "B" "second", Status.err "C" "third"] =
      (⟨Status.err "A" "first"⟩ : InitialSyncSharedData) :=
  (setInitialSyncStatusIfOK_first_write_wins ⟨Status.err "A" "first"⟩
    "A" "first" rfl).2 _

/-- C3: the validation callback returns OK iff the reply is OK and reports
primary or secondary; a failed reply is propagated unchanged with the shared
state untouched; a role mismatch with the source absent from the replication
membership yields a NotMasterOrSecondary error that is both written into the
shared sync state (via set-if-OK) and returned; a role mismatch with the
source present in membership yields a NotMasterOrSecondary error with the
shared state untouched. -/
theorem ensurePrimaryOrSecondary_spec (reply : RemoteCommandResponse)
    (otherNodes : List HostAndPort) (source : HostAndPort)
    (sd : InitialSyncSharedData) :
    ((ensurePrimaryOrSecondary reply otherNodes source sd).1 = Status.ok ↔
      reply.status = Status.ok ∧ (reply.ismaster || reply.secondary) = true) ∧
    (∀ c m, reply.status = Status.err c m →
      ensurePrimaryOrSecondary reply otherNodes source sd = (Status.err c m, sd)) ∧
    (reply.status = Status.ok → reply.ismaster = false → reply.secondary = false →
      (source ∉ otherNodes →
        (ensurePrimaryOrSecondary reply otherNodes source sd).1 =
          Status.err "NotMasterOrSecondary"
            ("Sync source " ++ source ++
              " has been removed from the replication configuration.") ∧
        (ensurePrimaryOrSecondary reply otherNodes source sd).2 =
          setInitialSyncStatusIfOK sd
            (ensurePrimaryOrSecondary reply otherNodes source sd).1 ∧
        (sd.initialSyncStatus = Status.ok →
          (ensurePrimaryOrSecondary reply otherNodes source sd).2.initialSyncStatus =
            (ensurePrimaryOrSecondary reply otherNodes source sd).1)) ∧
      (source ∈ otherNodes →
        (ensurePrimaryOrSecondary reply otherNodes source sd).1 =
          Status.err "NotMasterOrSecondary"
            ("Cannot connect because sync source " ++ source ++
              " is neither primary nor secondary.") ∧
        (ensurePrimaryOrSecondary reply otherNodes source sd).2 = sd)) := by
  refine ⟨?_, ?_, ?_⟩
  · cases hst : reply.status with
    | ok =>
      by_cases hrole : (reply.ismaster || reply.secondary) = true
      · simp [ensurePrimaryOrSecondary, hst, hrole]
      · by_cases hmem : source ∈ otherNodes
        · simp [ensurePrimaryOrSecondary, hst, hrole, hmem]
        · simp [ensurePrimaryOrSecondary, hst, hrole, hmem]
    | err c m => simp [ensurePrimaryOrSecondary, hst]
  · intro c m hst
    simp [ensurePrimaryOrSecondary, hst]
  · intro hst him hsec
    have hrole : (reply.ismaster || reply.secondary) = false := by
      rw [him, hsec]; rfl
    constructor
    · intro hmem
      refine ⟨?_, ?_, ?_⟩
      · simp [ensurePrimaryOrSecondary, hst, hrole, hmem]
      · simp [ensurePrimaryOrSecondary, hst, hrole, hmem]
      · intro hsd
        simp [ensurePrimaryOrSecondary, hst, hrole, hmem,
          setInitialSyncStatusIfOK, hsd]
    · intro hmem
      exact ⟨by simp [ensurePrimaryOrSecondary, hst, hrole, hmem],
        by simp [ensurePrimaryOrSecondary, hst, hrole, hmem]⟩

/-- Witness for C3: with an OK reply reporting neither primary nor secondary
and a source absent from membership, the fatal NotMasterOrSecondary error is
returned and recorded into an initially-OK shared state. -/
theorem ensurePrimaryOrSecondary_spec_witness :
    (ensurePrimaryOrSecondary ⟨Status.ok, false, false⟩ [] "host:27017"
        ⟨Status.ok⟩).1 =
      Status.err "NotMasterOrSecondary"
        ("Sync source " ++ "host:27017" ++
          " has been removed from the replication configuration.") ∧
    (ensurePrimaryOrSecondary ⟨Status.ok, false, false⟩ [] "host:27017"
        ⟨Status.ok⟩).2.initialSyncStatus =
      (ensurePrimaryOrSecondary ⟨Status.ok, false, false⟩ [] "host:27017"
        ⟨Status.ok⟩).1 := by
  have h := ((ensurePrimaryOrSecondary_spec ⟨Status.ok, false, false⟩ []
    "host:27017" ⟨Status.ok⟩).2.2 rfl rfl rfl).1 (by simp)
  exact ⟨h.1, h.2.2 rfl⟩

/-- C8: if the client already targets the sync source only a liveness check
runs (no hook install, no connect); otherwise the hook is installed and a
new connection to the source is opened (no liveness check).  Whenever the
connection step succeeds, authentication runs in either branch, and an
authentication failure surfaces as the stage result wrapped with context
naming the sync source. -/
theorem connectStage_spec (client : ClientState) (source : HostAndPort)
    (env : ConnectEnv) :
    (client.serverHostAndPort = source →
      ConnectAction.checkConnection ∈ (connectStage client source env).1 ∧
      ConnectAction.setHandshakeValidationHook ∉ (connectStage client source env).1 ∧
      (∀ a : HostAndPort, ConnectAction.connect a ∉ (connectStage client source env).1) ∧
      (connectStage client source env).2.2.hookInstalled = client.hookInstalled) ∧
    (client.serverHostAndPort ≠ source →
      ConnectAction.setHandshakeValidationHook ∈ (connectStage client source env).1 ∧
      ConnectAction.connect source ∈ (connectStage client source env).1 ∧
      ConnectAction.checkConnection ∉ (connectStage client source env).1 ∧
      (connectStage client source env).2.2.hookInstalled = true) ∧
    ((client.serverHostAndPort = source → env.checkResult = Status.ok) →
      (client.serverHostAndPort ≠ source → env.connectResult = Status.ok) →
      ConnectAction.authenticate ∈ (connectStage client source env).1 ∧
      (env.authResult = Status.ok → (connectStage client source env).2.1 = Status.ok) ∧
      ∀ c m, env.authResult = Status.err c m →
        (connectStage client source env).2.1 =
          Status.err c ("Failed to authenticate to " ++ source ++
            " :: caused by :: " ++ m)) := by
  by_cases hsame : client.serverHostAndPort = source
  · cases hchk : env.checkResult with
    | ok =>
      refine ⟨fun _ => ?_, fun hne => absurd hsame hne, fun _ _ => ?_⟩
      · simp [connectStage, hsame, hchk]
      · refine ⟨by simp [connectStage, hsame, hchk], ?_, ?_⟩
        · intro hauth
          simp [connectStage, hsame, hchk, hauth, Status.withContext]
        · intro c m hauth
          simp [connectStage, hsame, hchk, hauth, Status.withContext]
    | err c0 m0 =>
      refine ⟨fun _ => ?_, fun hne => absurd hsame hne, fun hok _ => ?_⟩
      · simp [connectStage, hsame, hchk]
      · exact absurd (hok hsame) (by intro hc; cases hc)
  · cases hcon : env.connectResult with
    | ok =>
      refine ⟨fun heq => absurd heq hsame, fun _ => ?_, fun _ _ => ?_⟩
      · simp [connectStage, hsame, hcon]
      · refine ⟨by simp [connectStage, hsame, hcon], ?_, ?_⟩
        · intro hauth
          simp [connectStage, hsame, hcon, hauth, Status.withContext]
        · intro c m hauth
          simp [connectStage, hsame, hcon, hauth, Status.withContext]
    | err c0 m0 =>
      refine ⟨fun heq => absurd heq hsame, fun _ => ?_, fun _ hok => ?_⟩
      · simp [connectStage, hsame, hcon]
      · exact absurd (hok hsame) (by intro hc; cases hc)

/-- Witness for C8: a client already pointing at the source performs only the
liveness check plus authentication, and the failed authentication surfaces
wrapped with the source's name. -/
theorem connectStage_spec_witness :
    ConnectAction.authenticate ∈
      (connectStage ⟨"src:27017", false⟩ "src:27017"
        ⟨Status.ok, Status.ok, Status.err "AuthenticationFailed" "bad key"⟩).1 ∧
    (connectStage ⟨"src:27017", false⟩ "src:27017"
        ⟨Status.ok, Status.ok, Status.err "AuthenticationFailed" "bad key"⟩).2.1 =
      Status.err "AuthenticationFailed"
        ("Failed to authenticate to " ++ "src:27017" ++
          " :: caused by :: " ++ "bad key") := by
  have h := (connectStage_spec ⟨"src:27017", false⟩ "src:27017"
    ⟨Status.ok, Status.ok, Status.err "AuthenticationFailed" "bad key"⟩).2.2
    (fun _ => rfl) (fun hne => absurd rfl hne)
  exact ⟨h.1, h.2.2 "AuthenticationFailed" "bad key" rfl⟩

theorem cloneLoop_nil (env : CloneEnv) (i : Nat) (st : ADCState) :
    cloneLoop env [] i st = st := rfl

theorem cloneLoop_cons_err (env : CloneEnv) (name : String)
    (rest : List String) (i : Nat) (st : ADCState) (c m : String)
    (h : env.runResult i = Status.err c m) :
    cloneLoop env (name :: rest) i st =
      { st with currentDatabaseCloner := some i,
                constructed := st.constructed ++ [i],
                sharedData := setInitialSyncStatusIfOK st.sharedData (Status.err c m) } := by
  simp [cloneLoop, h]

theorem cloneLoop_cons_ok_admin_err (env : CloneEnv) (name : String)
    (rest : List String) (i : Nat) (st : ADCState) (c m : String)
    (hrun : env.runResult i = Status.ok)
    (hadmin : equalCaseInsensitive name "admin" = true)
    (hval : env.adminValid i = Status.err c m) :
    cloneLoop env (name :: rest) i st =
      { st with currentDatabaseCloner := some i,
                constructed := st.constructed ++ [i],
                validated := st.validated ++ [i],
                sharedData := setInitialSyncStatusIfOK st.sharedData (Status.err c m) } := by
  simp [cloneLoop, hrun, hadmin, hval]

theorem cloneLoop_cons_ok_admin_ok (env : CloneEnv) (name : String)
    (rest : List String) (i : Nat) (st : ADCState)
    (hrun : env.runResult i = Status.ok)
    (hadmin : equalCaseInsensitive name "admin" = true)
    (hval : env.adminValid i = Status.ok) :
    cloneLoop env (name :: rest) i st =
      cloneLoop env rest (i + 1)
        (completeDatabase env i
          { st with currentDatabaseCloner := some i,
                    constructed := st.constructed ++ [i],
                    validated := st.validated ++ [i] }) := by
  simp [cloneLoop, hrun, hadmin, hval]

theorem cloneLoop_cons_ok_plain (env : CloneEnv) (name : String)
    (rest : List String) (i : Nat) (st : ADCState)
    (hrun : env.runResult i = Status.ok)
    (hadmin : equalCaseInsensitive name "admin" = false) :
    cloneLoop env (name :: rest) i st =
      cloneLoop env rest (i + 1)
        (completeDatabase env i
          { st with currentDatabaseCloner := some i,
                    constructed := st.constructed ++ [i] }) := by
  simp [cloneLoop, hrun, hadmin]

theorem stepOKb_true_run (env : CloneEnv) (name : String) (i : Nat)
    (h : stepOKb env name i = true) : env.runResult i = Status.ok := by
  have h1 := (Bool.and_eq_true _ _).mp h
  exact of_decide_eq_true h1.1

theorem stepOKb_true_admin (env : CloneEnv) (name : String) (i : Nat)
    (h : stepOKb env name i = true)
    (hadmin : equalCaseInsensitive name "admin" = true) :
    env.adminValid i = Status.ok := by
  have h1 := (Bool.and_eq_true _ _).mp h
  have h2 := h1.2
  rw [hadmin] at h2
  simpa using h2

theorem completeDatabase_cloned (env : CloneEnv) (i : Nat) (st : ADCState) :
    (completeDatabase env i st).stats.databasesCloned =
      st.stats.databasesCloned + 1 := rfl

theorem completeDatabase_current (env : CloneEnv) (i : Nat) (st : ADCState) :
    (completeDatabase env i st).currentDatabaseCloner = none := rfl

theorem completeDatabase_shared (env : CloneEnv) (i : Nat) (st : ADCState) :
    (completeDatabase env i st).sharedData = st.sharedData := rfl

theorem completeDatabase_constructed (env : CloneEnv) (i : Nat) (st : ADCState) :
    (completeDatabase env i st).constructed = st.constructed := rfl

theorem completeDatabase_validated (env : CloneEnv) (i : Nat) (st : ADCState) :
    (completeDatabase env i st).validated = st.validated := rfl

theorem cloneLoop_all_ok (env : CloneEnv) :
    ∀ (names : List String) (i : Nat) (st : ADCState),
      st.currentDatabaseCloner = none →
      (∀ (k : Nat) (name : String), names[k]? = some name →
        stepOKb env name (i + k) = true) →
      (cloneLoop env names i st).stats.databasesCloned =
          st.stats.databasesCloned + names.length ∧
      (cloneLoop env names i st).currentDatabaseCloner = none ∧
      (cloneLoop env names i st).sharedData = st.sharedData ∧
      (cloneLoop env names i st).constructed =
          st.constructed ++ List.range' i names.length := by
  intro names
  induction names with
  | nil =>
    intro i st hcur _
    simp [cloneLoop_nil, hcur]
  | cons name0 rest ih =>
    intro i st _ hok
    have hstep : stepOKb env name0 i = true := by
      have h := hok 0 name0 (by simp)
      simpa using h
    have hrun : env.runResult i = Status.ok := stepOKb_true_run env name0 i hstep
    have hok' : ∀ (k : Nat) (name : String), rest[k]? = some name →
        stepOKb env name (i + 1 + k) = true := by
      intro k n h
      have h2 := hok (k + 1) n (by simpa using h)
      have harith : i + (k + 1) = i + 1 + k := by omega
      rwa [harith] at h2
    by_cases hadmin : equalCaseInsensitive name0 "admin" = true
    · have hval : env.adminValid i = Status.ok :=
        stepOKb_true_admin env name0 i hstep hadmin
      rw [cloneLoop_cons_ok_admin_ok env name0 rest i st hrun hadmin hval]
      have hres := ih (i + 1)
        (completeDatabase env i
          { st with currentDatabaseCloner := some i,
                    constructed := st.constructed ++ [i],
                    validated := st.validated ++ [i] })
        (completeDatabase_current env i _) hok'
      refine ⟨?_, ?_, ?_, ?_⟩
      · rw [hres.1, completeDatabase_cloned]
        simp only [List.length_cons]
        omega
      · exact hres.2.1
      · rw [hres.2.2.1, completeDatabase_shared]
      · rw [hres.2.2.2, completeDatabase_constructed]
        simp [List.range'_succ]
    · have hadmin' : equalCaseInsensitive name0 "admin" = false :=
        Bool.eq_false_iff.mpr hadmin
      rw [cloneLoop_cons_ok_plain env name0 rest i st hrun hadmin']
      have hres := ih (i + 1)
        (completeDatabase env i
          { st with currentDatabaseCloner := some i,
                    constructed := st.constructed ++ [i] })
        (completeDatabase_current env i _) hok'
      refine ⟨?_, ?_, ?_, ?_⟩
      · rw [hres.1, completeDatabase_cloned]
        simp only [List.length_cons]
        omega
      · exact hres.2.1
      · rw [hres.2.2.1, completeDatabase_shared]
      · rw [hres.2.2.2, completeDatabase_constructed]
        simp [List.range'_succ]

theorem cloneLoop_fail (env : CloneEnv) :
    ∀ (names : List String) (k : Nat) (name : String) (i : Nat) (st : ADCState),
      names[k]? = some name →
      (∀ (j : Nat) (nj : String), j < k → names[j]? = some nj →
        stepOKb env nj (i + j) = true) →
      stepOKb env name (i + k) = false →
      (cloneLoop env names i st).stats.databasesCloned =
          st.stats.databasesCloned + k ∧
      (cloneLoop env names i st).currentDatabaseCloner = some (i + k) ∧
      (cloneLoop env names i st).constructed =
          st.constructed ++ List.range' i (k + 1) ∧
      (cloneLoop env names i st).sharedData =
          setInitialSyncStatusIfOK st.sharedData (failStatus env (i + k)) ∧
      (equalCaseInsensitive name "admin" = true →
        env.runResult (i + k) = Status.ok →
        (i + k) ∈ (cloneLoop env names i st).validated) := by
  intro names
  induction names with
  | nil =>
    intro k name i st hget _ _
    simp at hget
  | cons name0 rest ih =>
    intro k name i st hget hpre hfail
    match k with
    | 0 =>
      have hname : name0 = name := by simpa using hget
      subst hname
      simp only [Nat.add_zero] at hfail ⊢
      cases hrun : env.runResult i with
      | err c m =>
        rw [cloneLoop_cons_err env name0 rest i st c m hrun]
        refine ⟨by simp, by simp, by simp [List.range'_one], ?_, ?_⟩
        · simp [failStatus, hrun]
        · intro _ hok
          exact Status.noConfusion hok
      | ok =>
        have hadmin : equalCaseInsensitive name0 "admin" = true := by
          by_contra hc
          have hc' : equalCaseInsensitive name0 "admin" = false :=
            Bool.eq_false_iff.mpr hc
          rw [stepOKb, hrun, hc'] at hfail
          simp at hfail
        cases hval : env.adminValid i with
        | ok =>
          rw [stepOKb, hrun, hadmin, hval] at hfail
          simp at hfail
        | err c m =>
          rw [cloneLoop_cons_ok_admin_err env name0 rest i st c m hrun hadmin hval]
          refine ⟨by simp, by simp, by simp [List.range'_one], ?_, ?_⟩
          · simp [failStatus, hrun, hval]
          · intro _ _
            simp
    | k' + 1 =>
      have hget' : rest[k']? = some name := by simpa using hget
      have hstep : stepOKb env name0 i = true := by
        have h := hpre 0 name0 (Nat.succ_pos k') (by simp)
        simpa using h
      have hrun : env.runResult i = Status.ok := stepOKb_true_run env name0 i hstep
      have hpre' : ∀ (j : Nat) (nj : String), j < k' → rest[j]? = some nj →
          stepOKb env nj (i + 1 + j) = true := by
        intro j nj hj h
        have h2 := hpre (j + 1) nj (by omega) (by simpa using h)
        have harith2 : i + (j + 1) = i + 1 + j := by omega
        rwa [harith2] at h2
      have harith : i + 1 + k' = i + (k' + 1) := by omega
      have hfail' : stepOKb env name (i + 1 + k') = false := by
        rwa [harith]
      by_cases hadmin : equalCaseInsensitive name0 "admin" = true
      · have hval : env.adminValid i = Status.ok :=
          stepOKb_true_admin env name0 i hstep hadmin
        rw [cloneLoop_cons_ok_admin_ok env name0 rest i st hrun hadmin hval]
        have hres := ih k' name (i + 1)
          (completeDatabase env i
            { st with currentDatabaseCloner := some i,
                      constructed := st.constructed ++ [i],
                      validated := st.validated ++ [i] }) hget' hpre' hfail'
        rw [harith] at hres
        refine ⟨?_, hres.2.1, ?_, ?_, ?_⟩
        · rw [hres.1, completeDatabase_cloned]
          show st.stats.databasesCloned + 1 + k' = st.stats.databasesCloned + (k' + 1)
          omega
        · rw [hres.2.2.1, completeDatabase_constructed]
          simp [List.range'_succ]
        · rw [hres.2.2.2.1, completeDatabase_shared]
        · intro ha hr
          exact hres.2.2.2.2 ha hr
      · have hadmin' : equalCaseInsensitive name0 "admin" = false :=
          Bool.eq_false_iff.mpr hadmin
        rw [cloneLoop_cons_ok_plain env name0 rest i st hrun hadmin']
        have hres := ih k' name (i + 1)
          (completeDatabase env i
            { st with currentDatabaseCloner := some i,
                      constructed := st.constructed ++ [i] }) hget' hpre' hfail'
        rw [harith] at hres
        refine ⟨?_, hres.2.1, ?_, ?_, ?_⟩
        · rw [hres.1, completeDatabase_cloned]
          show st.stats.databasesCloned + 1 + k' = st.stats.databasesCloned + (k' + 1)
          omega
        · rw [hres.2.2.1, completeDatabase_constructed]
          simp [List.range'_succ]
        · rw [hres.2.2.2.1, completeDatabase_shared]
        · intro ha hr
          exact hres.2.2.2.2 ha hr

theorem cloneLoop_validated_mono (env : CloneEnv) :
    ∀ (names : List String) (i : Nat) (st : ADCState) (x : Nat),
      x ∈ st.validated → x ∈ (cloneLoop env names i st).validated := by
  intro names
  induction names with
  | nil =>
    intro i st x hx
    rwa [cloneLoop_nil]
  | cons name0 rest ih =>
    intro i st x hx
    cases hrun : env.runResult i with
    | err c m =>
      rw [cloneLoop_cons_err env name0 rest i st c m hrun]
      exact hx
    | ok =>
      by_cases hadmin : equalCaseInsensitive name0 "admin" = true
      · cases hval : env.adminValid i with
        | err c m =>
          rw [cloneLoop_cons_ok_admin_err env name0 rest i st c m hrun hadmin hval]
          exact List.mem_append_left _ hx
        | ok =>
          rw [cloneLoop_cons_ok_admin_ok env name0 rest i st hrun hadmin hval]
          refine ih (i + 1) _ x ?_
          rw [completeDatabase_validated]
          exact List.mem_append_left _ hx
      · have hadmin' : equalCaseInsensitive name0 "admin" = false :=
          Bool.eq_false_iff.mpr hadmin
        rw [cloneLoop_cons_ok_plain env name0 rest i st hrun hadmin']
        refine ih (i + 1) _ x ?_
        rw [completeDatabase_validated]
        exact hx

theorem cloneLoop_validates (env : CloneEnv) :
    ∀ (names : List String) (k : Nat) (name : String) (i : Nat) (st : ADCState),
      names[k]? = some name →
      (∀ (j : Nat) (nj : String), j < k → names[j]? = some nj →
        stepOKb env nj (i + j) = true) →
      equalCaseInsensitive name "admin" = true →
      env.runResult (i + k) = Status.ok →
      (i + k) ∈ (cloneLoop env names i st).validated := by
  intro names
  induction names with
  | nil =>
    intro k name i st hget _ _ _
    simp at hget
  | cons name0 rest ih =>
    intro k name i st hget hpre hadmin hrun
    match k with
    | 0 =>
      have hname : name0 = name := by simpa using hget
      subst hname
      simp only [Nat.add_zero] at hrun ⊢
      cases hval : env.adminValid i with
      | err c m =>
        rw [cloneLoop_cons_ok_admin_err env name0 rest i st c m hrun hadmin hval]
        simp
      | ok =>
        rw [cloneLoop_cons_ok_admin_ok env name0 rest i st hrun hadmin hval]
        refine cloneLoop_validated_mono env rest (i + 1) _ i ?_
        rw [completeDatabase_validated]
        simp
    | k' + 1 =>
      have hget' : rest[k']? = some name := by simpa using hget
      have hstep : stepOKb env name0 i = true := by
        have h := hpre 0 name0 (Nat.succ_pos k') (by simp)
        simpa using h
      have hrun0 : env.runResult i = Status.ok := stepOKb_true_run env name0 i hstep
      have hpre' : ∀ (j : Nat) (nj : String), j < k' → rest[j]? = some nj →
          stepOKb env nj (i + 1 + j) = true := by
        intro j nj hj h
        have h2 := hpre (j + 1) nj (by omega) (by simpa using h)
        have harith2 : i + (j + 1) = i + 1 + j := by omega
        rwa [harith2] at h2
      have harith : i + 1 + k' = i + (k' + 1) := by omega
      have hrun' : env.runResult (i + 1 + k') = Status.ok := by
        rwa [harith]
      by_cases hadmin0 : equalCaseInsensitive name0 "admin" = true
      · have hval0 : env.adminValid i = Status.ok :=
          stepOKb_true_admin env name0 i hstep hadmin0
        rw [cloneLoop_cons_ok_admin_ok env name0 rest i st hrun0 hadmin0 hval0]
        have hm := ih k' name (i + 1)
          (completeDatabase env i
            { st with currentDatabaseCloner := some i,
                      constructed := st.constructed ++ [i],
                      validated := st.validated ++ [i] }) hget' hpre' hadmin hrun'
        rwa [harith] at hm
      · have hadmin0' : equalCaseInsensitive name0 "admin" = false :=
          Bool.eq_false_iff.mpr hadmin0
        rw [cloneLoop_cons_ok_plain env name0 rest i st hrun0 hadmin0']
        have hm := ih k' name (i + 1)
          (completeDatabase env i
            { st with currentDatabaseCloner := some i,
                      constructed := st.constructed ++ [i] }) hget' hpre' hadmin hrun'
        rwa [harith] at hm

/-- C1: whenever every iteration before index `i` succeeds, the nested clone
at index `i` fails, and the shared state is still OK, `postStage` records
that failure into the shared sync state, `databasesCloned` equals `i`, and
the nested units ever constructed are exactly those for indices `0..i` (none
for any index greater than `i`). -/
theorem postStage_clone_failure (env : CloneEnv) (dbs : List String)
    (sd : InitialSyncSharedData) (i : Nat) (name c m : String)
    (hget : dbs[i]? = some name)
    (hpre : ∀ (j : Nat) (nj : String), j < i → dbs[j]? = some nj →
      stepOKb env nj j = true)
    (hfail : env.runResult i = Status.err c m)
    (hsd : sd.initialSyncStatus = Status.ok) :
    (postStage env dbs sd).sharedData.initialSyncStatus = Status.err c m ∧
    (postStage env dbs sd).stats.databasesCloned = i ∧
    (postStage env dbs sd).constructed = List.range (i + 1) := by
  have hpre0 : ∀ (j : Nat) (nj : String), j < i → dbs[j]? = some nj →
      stepOKb env nj (0 + j) = true := by
    intro j nj hj h
    rw [Nat.zero_add]
    exact hpre j nj hj h
  have hfailb : stepOKb env name (0 + i) = false := by
    rw [Nat.zero_add, stepOKb, hfail]
    simp
  have hres := cloneLoop_fail env dbs i name 0 (initialState dbs sd)
    hget hpre0 hfailb
  simp only [Nat.zero_add] at hres
  refine ⟨?_, ?_, ?_⟩
  · rw [postStage, hres.2.2.2.1]
    show (setInitialSyncStatusIfOK sd (failStatus env i)).initialSyncStatus =
      Status.err c m
    simp [setInitialSyncStatusIfOK, hsd, failStatus, hfail]
  · rw [postStage, hres.1]
    show 0 + i = i
    omega
  · rw [postStage, hres.2.2.1]
    show [] ++ List.range' 0 (i + 1) = List.range (i + 1)
    simp [List.range_eq_range']

/-- Witness for C1: with a three-database list where the clone at index 1
fails, the failure is recorded, one database counts as cloned, and only
units 0 and 1 were constructed. -/
theorem postStage_clone_failure_witness :
    (postStage
      ⟨fun n => if n = 1 then Status.err "E" "boom" else Status.ok,
        fun _ => ⟨"", 0⟩, fun _ => ⟨"", 0⟩, fun _ => Status.ok⟩
      ["admin", "foo", "bar"] ⟨Status.ok⟩).sharedData.initialSyncStatus =
        Status.err "E" "boom" ∧
    (postStage
      ⟨fun n => if n = 1 then Status.err "E" "boom" else Status.ok,
        fun _ => ⟨"", 0⟩, fun _ => ⟨"", 0⟩, fun _ => Status.ok⟩
      ["admin", "foo", "bar"] ⟨Status.ok⟩).stats.databasesCloned = 1 ∧
    (postStage
      ⟨fun n => if n = 1 then Status.err "E" "boom" else Status.ok,
        fun _ => ⟨"", 0⟩, fun _ => ⟨"", 0⟩, fun _ => Status.ok⟩
      ["admin", "foo", "bar"] ⟨Status.ok⟩).constructed = List.range 2 := by
  refine postStage_clone_failure _ ["admin", "foo", "bar"] ⟨Status.ok⟩ 1
    "foo" "E" "boom" rfl ?_ rfl rfl
  intro j nj hj h
  have hj0 : j = 0 := by omega
  subst hj0
  have hn : "admin" = nj := by simpa using h
  subst hn
  decide

/-- C4: whenever every iteration before index `i` succeeds and the database
at index `i` matches admin case-insensitively, its clone succeeds but its
post-clone validation fails, `postStage` records the validation failure into
the shared sync state, does not count that database as completed
(`databasesCloned = i`), constructs no nested unit for indices beyond `i`,
and did perform the validation at index `i`. -/
theorem postStage_admin_validation_failure (env : CloneEnv) (dbs : List String)
    (sd : InitialSyncSharedData) (i : Nat) (name c m : String)
    (hget : dbs[i]? = some name)
    (hadmin : equalCaseInsensitive name "admin" = true)
    (hpre : ∀ (j : Nat) (nj : String), j < i → dbs[j]? = some nj →
      stepOKb env nj j = true)
    (hrun : env.runResult i = Status.ok)
    (hval : env.adminValid i = Status.err c m)
    (hsd : sd.initialSyncStatus = Status.ok) :
    (postStage env dbs sd).sharedData.initialSyncStatus = Status.err c m ∧
    (postStage env dbs sd).stats.databasesCloned = i ∧
    (postStage env dbs sd).constructed = List.range (i + 1) ∧
    i ∈ (postStage env dbs sd).validated := by
  have hpre0 : ∀ (j : Nat) (nj : String), j < i → dbs[j]? = some nj →
      stepOKb env nj (0 + j) = true := by
    intro j nj hj h
    rw [Nat.zero_add]
    exact hpre j nj hj h
  have hfailb : stepOKb env name (0 + i) = false := by
    rw [Nat.zero_add, stepOKb, hrun, hadmin, hval]
    simp
  have hres := cloneLoop_fail env dbs i name 0 (initialState dbs sd)
    hget hpre0 hfailb
  simp only [Nat.zero_add] at hres
  refine ⟨?_, ?_, ?_, ?_⟩
  · rw [postStage, hres.2.2.2.1]
    show (setInitialSyncStatusIfOK sd (failStatus env i)).initialSyncStatus =
      Status.err c m
    simp [setInitialSyncStatusIfOK, hsd, failStatus, hrun, hval]
  · rw [postStage, hres.1]
    show 0 + i = i
    omega
  · rw [postStage, hres.2.2.1]
    show [] ++ List.range' 0 (i + 1) = List.range (i + 1)
    simp [List.range_eq_range']
  · rw [postStage]
    exact hres.2.2.2.2 hadmin hrun

/-- Witness for C4: a single-database list `["admin"]` whose clone succeeds
but whose admin validation fails yields the recorded failure, a zero
completed count, exactly one constructed unit, and a performed validation. -/
theorem postStage_admin_validation_failure_witness :
    (postStage
      ⟨fun _ => Status.ok, fun _ => ⟨"", 0⟩, fun _ => ⟨"", 0⟩,
        fun _ => Status.err "V" "invalid"⟩
      ["admin"] ⟨Status.ok⟩).sharedData.initialSyncStatus =
        Status.err "V" "invalid" ∧
    (postStage
      ⟨fun _ => Status.ok, fun _ => ⟨"", 0⟩, fun _ => ⟨"", 0⟩,
        fun _ => Status.err "V" "invalid"⟩
      ["admin"] ⟨Status.ok⟩).stats.databasesCloned = 0 ∧
    (postStage
      ⟨fun _ => Status.ok, fun _ => ⟨"", 0⟩, fun _ => ⟨"", 0⟩,
        fun _ => Status.err "V" "invalid"⟩
      ["admin"] ⟨Status.ok⟩).constructed = List.range 1 ∧
    0 ∈ (postStage
      ⟨fun _ => Status.ok, fun _ => ⟨"", 0⟩, fun _ => ⟨"", 0⟩,
        fun _ => Status.err "V" "invalid"⟩
      ["admin"] ⟨Status.ok⟩).validated := by
  refine postStage_admin_validation_failure _ ["admin"] ⟨Status.ok⟩ 0
    "admin" "V" "invalid" rfl (by decide) ?_ rfl rfl rfl
  intro j nj hj h
  omega

/-- Counterexample for C9: after a run in which the clone of the single
database fails, no nested clone is running any more, yet `postStage` leaves
`_currentDatabaseCloner` holding the failed unit — the early-return failure
paths never reset the handle to null. -/
theorem postStage_handle_counterexample :
    (postStage
      ⟨fun _ => Status.err "E" "boom", fun _ => ⟨"", 0⟩, fun _ => ⟨"", 0⟩,
        fun _ => Status.ok⟩
      ["a"] ⟨Status.ok⟩).currentDatabaseCloner ≠ none := by
  decide

/-- C9 (amended): on the success path the handle is discarded immediately
after each database's clone completes, so a fully successful run ends with a
null Active Unit Handle; but on a failure exit (either the nested run or the
admin validation failing at index `k`) the handle still holds the unit for
index `k` when `postStage` returns. -/
theorem postStage_handle (env : CloneEnv) (dbs : List String)
    (sd : InitialSyncSharedData) :
    ((∀ (k : Nat) (name : String), dbs[k]? = some name →
        stepOKb env name k = true) →
      (postStage env dbs sd).currentDatabaseCloner = none) ∧
    (∀ (k : Nat) (name : String), dbs[k]? = some name →
      (∀ (j : Nat) (nj : String), j < k → dbs[j]? = some nj →
        stepOKb env nj j = true) →
      stepOKb env name k = false →
      (postStage env dbs sd).currentDatabaseCloner = some k) := by
  constructor
  · intro hok
    have hok0 : ∀ (k : Nat) (name : String), dbs[k]? = some name →
        stepOKb env name (0 + k) = true := by
      intro k name h
      rw [Nat.zero_add]
      exact hok k name h
    have hres := cloneLoop_all_ok env dbs 0 (initialState dbs sd) rfl hok0
    rw [postStage]
    exact hres.2.1
  · intro k name hget hpre hfail
    have hpre0 : ∀ (j : Nat) (nj : String), j < k → dbs[j]? = some nj →
        stepOKb env nj (0 + j) = true := by
      intro j nj hj h
      rw [Nat.zero_add]
      exact hpre j nj hj h
    have hfailb : stepOKb env name (0 + k) = false := by
      rwa [Nat.zero_add]
    have hres := cloneLoop_fail env dbs k name 0 (initialState dbs sd)
      hget hpre0 hfailb
    rw [postStage, hres.2.1, Nat.zero_add]

/-- Witness for C9 (amended): a fully successful single-database run ends
with a null handle. -/
theorem postStage_handle_witness :
    (postStage
      ⟨fun _ => Status.ok, fun _ => ⟨"", 0⟩, fun _ => ⟨"", 0⟩,
        fun _ => Status.ok⟩
      ["db1"] ⟨Status.ok⟩).currentDatabaseCloner = none := by
  refine (postStage_handle _ ["db1"] ⟨Status.ok⟩).1 ?_
  intro k name h
  match k with
  | 0 =>
    have hn : "db1" = name := by simpa using h
    subst hn
    decide
  | k' + 1 => simp at h

/-- C10: the admin-front swap in the listing stage is keyed on the exact
lowercase name `"admin"`, so a database named `"Admin"` (admin
case-insensitively, but not exactly) is appended at the back like any other
name; yet the sequential clone driver matches admin case-insensitively, so
after such a database's clone succeeds the admin validation is still
performed on it. -/
theorem listAdmin_exact_vs_caseInsensitive :
    (∀ (dbs : List String) (n : String), n ≠ "admin" → n ≠ "local" →
      listStep dbs (some n) = dbs ++ [n]) ∧
    (∀ (env : CloneEnv) (dbs : List String) (sd : InitialSyncSharedData)
        (i : Nat) (name : String),
      dbs[i]? = some name →
      equalCaseInsensitive name "admin" = true →
      (∀ (j : Nat) (nj : String), j < i → dbs[j]? = some nj →
        stepOKb env nj j = true) →
      env.runResult i = Status.ok →
      i ∈ (postStage env dbs sd).validated) := by
  constructor
  · intro dbs n hadmin hlocal
    exact listStep_plain dbs n hadmin hlocal
  · intro env dbs sd i name hget hadmin hpre hrun
    have hpre0 : ∀ (j : Nat) (nj : String), j < i → dbs[j]? = some nj →
        stepOKb env nj (0 + j) = true := by
      intro j nj hj h
      rw [Nat.zero_add]
      exact hpre j nj hj h
    have hrun0 : env.runResult (0 + i) = Status.ok := by
      rwa [Nat.zero_add]
    have hres := cloneLoop_validates env dbs i name 0 (initialState dbs sd)
      hget hpre0 hadmin hrun0
    rw [Nat.zero_add] at hres
    rw [postStage]
    exact hres

/-- Witness for C10: with the listing `["reporting", "Admin"]`, the entry
`"Admin"` is appended at the back (not swapped to the front), and after both
clones the driver validated the database at index 1 (`"Admin"`). -/
theorem listAdmin_exact_vs_caseInsensitive_witness :
    listStep ["reporting"] (some "Admin") = ["reporting", "Admin"] ∧
    1 ∈ (postStage
      ⟨fun _ => Status.ok, fun _ => ⟨"", 0⟩, fun _ => ⟨"", 0⟩,
        fun _ => Status.ok⟩
      ["reporting", "Admin"] ⟨Status.ok⟩).validated := by
  constructor
  · exact listAdmin_exact_vs_caseInsensitive.1 ["reporting"] "Admin"
      (by decide) (by decide)
  · refine listAdmin_exact_vs_caseInsensitive.2 _ ["reporting", "Admin"]
      ⟨Status.ok⟩ 1 "Admin" rfl (by decide) ?_ rfl
    intro j nj hj h
    have hj0 : j = 0 := by omega
    subst hj0
    have hn : "reporting" = nj := by simpa using h
    subst hn
    decide

/-- C7: the stats snapshot copies the aggregate stats; when a nested unit is
held, only the slot at index `databasesCloned` is overwritten, with that
unit's live stats — every other slot is returned exactly as stored (so at
most one live/partial entry appears), the length is unchanged, and with no
active unit the stored stats are returned verbatim. -/
theorem getStats_snapshot (env : CloneEnv) (st : ADCState) :
    (getStats env st).databasesCloned = st.stats.databasesCloned ∧
    (getStats env st).databaseStats.length = st.stats.databaseStats.length ∧
    (∀ j : Nat, j ≠ st.stats.databasesCloned →
      (getStats env st).databaseStats[j]? = st.stats.databaseStats[j]?) ∧
    (st.currentDatabaseCloner = none → getStats env st = st.stats) ∧
    (∀ u : Nat, st.currentDatabaseCloner = some u →
      st.stats.databasesCloned < st.stats.databaseStats.length →
      (getStats env st).databaseStats[st.stats.databasesCloned]? =
        some (env.liveStats u)) := by
  cases hcur : st.currentDatabaseCloner with
  | none =>
    refine ⟨?_, ?_, ?_, ?_, ?_⟩
    · simp [getStats, hcur]
    · simp [getStats, hcur]
    · intro j _
      simp [getStats, hcur]
    · intro _
      simp [getStats, hcur]
    · intro u hu
      cases hu
  | some u =>
    refine ⟨?_, ?_, ?_, ?_, ?_⟩
    · simp [getStats, hcur]
    · simp [getStats, hcur]
    · intro j hj
      simp only [getStats, hcur]
      exact List.getElem?_set_ne (fun h => hj h.symm)
    · intro hnone
      cases hnone
    · intro u' hu' hlt
      have huu : u = u' := Option.some.inj hu'
      subst huu
      simp only [getStats, hcur]
      exact List.getElem?_set_eq_of_lt _ hlt

/-- Witness for C7: a state holding a live unit at index 1 of a two-slot
stats list has slot 0 untouched and slot 1 replaced by the live stats. -/
theorem getStats_snapshot_witness :
    ((getStats
      ⟨fun _ => Status.ok, fun _ => ⟨"", 0⟩, fun _ => ⟨"live", 7⟩,
        fun _ => Status.ok⟩
      ⟨⟨1, [⟨"a", 3⟩, ⟨"b", 0⟩]⟩, some 1, ⟨Status.ok⟩, [0, 1], []⟩).databaseStats[0]? =
      some ⟨"a", 3⟩) ∧
    ((getStats
      ⟨fun _ => Status.ok, fun _ => ⟨"", 0⟩, fun _ => ⟨"live", 7⟩,
        fun _ => Status.ok⟩
      ⟨⟨1, [⟨"a", 3⟩, ⟨"b", 0⟩]⟩, some 1, ⟨Status.ok⟩, [0, 1], []⟩).databaseStats[1]? =
      some ⟨"live", 7⟩) := by
  constructor
  · have h := (getStats_snapshot
      ⟨fun _ => Status.ok, fun _ => ⟨"", 0⟩, fun _ => ⟨"live", 7⟩,
        fun _ => Status.ok⟩
      ⟨⟨1, [⟨"a", 3⟩, ⟨"b", 0⟩]⟩, some 1, ⟨Status.ok⟩, [0, 1], []⟩).2.2.1
      0 (by decide)
    simpa using h
  · have h := (getStats_snapshot
      ⟨fun _ => Status.ok, fun _ => ⟨"", 0⟩, fun _ => ⟨"live", 7⟩,
        fun _ => Status.ok⟩
      ⟨⟨1, [⟨"a", 3⟩, ⟨"b", 0⟩]⟩, some 1, ⟨Status.ok⟩, [0, 1], []⟩).2.2.2.2
      1 rfl (by decide)
    simpa using h
